import Mathlib

/-!
Shallow embedding of `src/packages/messaging/src/Message.ts` (classes `Header`
and `Message`, function `associatedData`) together with spec-modelled versions
of the external collaborators it imports: public keys, key bundles, the wire
codec, the text codec and the crypto primitives.
-/

/-- Byte sequences of the wire level, modelled as lists of naturals. -/
abbrev Bytes := List Nat

/-- Modelled from the spec: external `PublicKey` (crypto module, not under
`src/`); carries opaque key material, compared by `matches`. -/
structure PublicKey where
  keyBytes : Bytes
deriving DecidableEq, Repr

/-- Modelled from the spec: `PublicKey.matches(other) -> bool` is a
public-key-equality check. -/
def PublicKey.matches (k other : PublicKey) : Bool :=
  k.keyBytes == other.keyBytes

/-- Modelled from the spec: an external private key owning a private scalar
together with its public half. -/
structure PrivateKey where
  publicKey : PublicKey
  secret : Bytes
deriving DecidableEq, Repr

/-- Modelled from the spec: a private key matches a public key when its public
half equals it (public-key-equality check used in step 6 of decode). -/
def PrivateKey.matches (k : PrivateKey) (p : PublicKey) : Bool :=
  k.publicKey.matches p

/-- Modelled from the spec: external `KeyBundle` — an identity key plus a
pre-key; both optional at the wire level. The wire form and the class share
this structure (class construction is a structural copy of present fields). -/
structure KeyBundle where
  identityKey : Option PublicKey
  preKey : Option PublicKey
deriving DecidableEq, Repr

/-- The `Header` class of `Message.ts`: pairs an optional sender bundle with an
optional recipient bundle. The TS class constructor copies the present fields of
the wire representation, which is the identity here; the stray `decrypted` field
of the TS class is never assigned and is omitted. -/
structure Header where
  sender : Option KeyBundle
  recipient : Option KeyBundle
deriving DecidableEq, Repr

/-- Modelled from the spec: payload of the one supported AEAD suite
(`aes256GcmHkdfSha256`) inside the external `Ciphertext` container. -/
structure AesPayload where
  hkdfSalt : Bytes
  gcmNonce : Bytes
  payload : Bytes
deriving DecidableEq, Repr

/-- Modelled from the spec: external `Ciphertext` — an opaque encrypted-payload
container whose suite-specific payload may be absent at the wire level. -/
structure Ciphertext where
  aes256GcmHkdfSha256 : Option AesPayload
deriving DecidableEq, Repr

/-- Modelled from the spec: external `PrivateKeyBundle` — private identity key,
an optional current (active) pre-key, and the stored pre-key inventory. -/
structure PrivateKeyBundle where
  identityKey : Option PrivateKey
  preKey : Option PrivateKey
  preKeys : List PrivateKey
deriving DecidableEq, Repr

/-- Modelled from the spec: `getKeyBundle()` is the self-identity projection of
a private bundle to its public `KeyBundle`. -/
def PrivateKeyBundle.getKeyBundle (b : PrivateKeyBundle) : KeyBundle :=
  { identityKey := b.identityKey.map (fun k => k.publicKey)
    preKey := b.preKey.map (fun k => k.publicKey) }

/-- The `Message` class of `Message.ts`: optional header, optional ciphertext,
and the transient non-serialized `decrypted` cache. -/
structure Message where
  header : Option Header
  ciphertext : Option Ciphertext
  decrypted : Option String
deriving DecidableEq, Repr

/-- Modelled from the spec: the external crypto primitives consumed by
`Message.ts` — `PrivateKeyBundle.sharedSecret(peer, isRecipientSide)`, the AEAD
`encrypt(plain, secret, associatedData)` and `decrypt(ciphertext, secret,
associatedData)`; all fallible. -/
structure Crypto where
  sharedSecret : PrivateKeyBundle → KeyBundle → Bool → Except String Bytes
  encrypt : Bytes → Bytes → Bytes → Except String Ciphertext
  decrypt : Ciphertext → Bytes → Bytes → Except String Bytes

/-- Modelled from the spec: `TextEncoder` — the fixed text encoding of a
plaintext string to bytes. -/
def textEncode (s : String) : Bytes :=
  s.data.map Char.toNat

/-- Modelled from the spec: `TextDecoder` — total decoding of bytes back to
text. -/
def textDecode (b : Bytes) : String :=
  String.mk (b.map Char.ofNat)

namespace proto

/-- Modelled from the spec: wire codec helper — a length-prefixed byte field. -/
def encBytes (b : Bytes) : Bytes :=
  b.length :: b

/-- Modelled from the spec: wire codec helper — parse a length-prefixed byte
field, returning the field and the remaining input. -/
def decBytes : Bytes → Option (Bytes × Bytes)
  | [] => none
  | n :: rest =>
    if rest.length < n then none else some (rest.take n, rest.drop n)

/-- Modelled from the spec: wire codec helper — field presence is significant,
so an optional field is encoded with an explicit presence tag. -/
def encOpt (enc : α → Bytes) : Option α → Bytes
  | none => [0]
  | some x => 1 :: enc x

/-- Modelled from the spec: wire codec helper — parse an optional field. -/
def decOpt (dec : Bytes → Option (α × Bytes)) : Bytes → Option (Option α × Bytes)
  | 0 :: rest => some (none, rest)
  | 1 :: rest => (dec rest).map (fun p => (some p.1, p.2))
  | _ => none

/-- Modelled from the spec: wire encoding of a public key. -/
def publicKeyEncode (k : PublicKey) : Bytes :=
  encBytes k.keyBytes

/-- Modelled from the spec: wire parsing of a public key. -/
def publicKeyParse (b : Bytes) : Option (PublicKey × Bytes) :=
  (decBytes b).map (fun p => (PublicKey.mk p.1, p.2))

/-- Modelled from the spec: wire encoding of a key bundle (identity key field,
then pre-key field). -/
def keyBundleEncode (k : KeyBundle) : Bytes :=
  encOpt publicKeyEncode k.identityKey ++ encOpt publicKeyEncode k.preKey

/-- Modelled from the spec: wire parsing of a key bundle. -/
def keyBundleParse (b : Bytes) : Option (KeyBundle × Bytes) :=
  (decOpt publicKeyParse b).bind (fun p1 =>
    (decOpt publicKeyParse p1.2).map (fun p2 =>
      (KeyBundle.mk p1.1 p2.1, p2.2)))

/-- Modelled from the spec: `proto.Message_Header.encode` — deterministic
serialization, sender field first and recipient field second. -/
def headerEncode (h : Header) : Bytes :=
  encOpt keyBundleEncode h.sender ++ encOpt keyBundleEncode h.recipient

/-- Modelled from the spec: wire parsing of a message header. -/
def headerParse (b : Bytes) : Option (Header × Bytes) :=
  (decOpt keyBundleParse b).bind (fun p1 =>
    (decOpt keyBundleParse p1.2).map (fun p2 =>
      (Header.mk p1.1 p2.1, p2.2)))

/-- Modelled from the spec: `proto.Message_Header.decode` — requires the whole
input to be consumed; fallible, as the external decoder throws on malformed
input. -/
def headerDecode (b : Bytes) : Option Header :=
  (headerParse b).bind (fun p => if p.2 = [] then some p.1 else none)

/-- Modelled from the spec: wire encoding of the AEAD suite payload. -/
def aesPayloadEncode (a : AesPayload) : Bytes :=
  encBytes a.hkdfSalt ++ encBytes a.gcmNonce ++ encBytes a.payload

/-- Modelled from the spec: wire parsing of the AEAD suite payload. -/
def aesPayloadParse (b : Bytes) : Option (AesPayload × Bytes) :=
  (decBytes b).bind (fun p1 =>
    (decBytes p1.2).bind (fun p2 =>
      (decBytes p2.2).map (fun p3 =>
        (AesPayload.mk p1.1 p2.1 p3.1, p3.2))))

/-- Modelled from the spec: wire encoding of a ciphertext container. -/
def ciphertextEncode (c : Ciphertext) : Bytes :=
  encOpt aesPayloadEncode c.aes256GcmHkdfSha256

/-- Modelled from the spec: wire parsing of a ciphertext container. -/
def ciphertextParse (b : Bytes) : Option (Ciphertext × Bytes) :=
  (decOpt aesPayloadParse b).map (fun p => (Ciphertext.mk p.1, p.2))

/-- Modelled from the spec: `proto.Message.encode` — the wire form of a message
is exactly the header field followed by the ciphertext field; the transient
`decrypted` cache is never transmitted. -/
def messageEncode (m : Message) : Bytes :=
  encOpt headerEncode m.header ++ encOpt ciphertextEncode m.ciphertext

/-- Modelled from the spec: `proto.Message.decode` — parses the two wire fields
and requires the whole input to be consumed. -/
def messageDecode (b : Bytes) : Option Message :=
  (decOpt headerParse b).bind (fun p1 =>
    (decOpt ciphertextParse p1.2).bind (fun p2 =>
      if p2.2 = [] then some (Message.mk p1.1 p2.1 none) else none))

end proto

/-- Embeds `Header.toBytes()` of `Message.ts`: serializes the header through the wire
codec. -/
def Header.toBytes (h : Header) : Bytes :=
  proto.headerEncode h

/-- Embeds `Header.fromBytes(bytes)` of `Message.ts`: wire-decodes the bytes and wraps
them in a `Header`; the class constructor is a structural copy of the present
fields, so this is the wire decoder itself. Fallible, as the external decoder
throws on malformed input. -/
def Header.fromBytes (bytes : Bytes) : Option Header :=
  proto.headerDecode bytes

/-- Argument type of `associatedData()` in `Message.ts`: both bundles are
required to be present. -/
structure AssociatedData where
  sender : KeyBundle
  recipient : KeyBundle

/-- Embeds `associatedData(header)` of `Message.ts`: serializes the sender/recipient
pair through the header wire format so it can be authenticated by the AEAD. -/
def associatedData (header : AssociatedData) : Bytes :=
  proto.headerEncode { sender := some header.sender, recipient := some header.recipient }

/-- Embeds `Message.toBytes()` of `Message.ts`: serializes the message through the
wire codec (the `decrypted` cache is not part of the wire form). -/
def Message.toBytes (m : Message) : Bytes :=
  proto.messageEncode m

/-- Embeds `Message.fromBytes(bytes)` of `Message.ts`: wire-decodes the bytes and
wraps them in a `Message` (structural copy, `decrypted` unset). -/
def Message.fromBytes (bytes : Bytes) : Option Message :=
  proto.messageDecode bytes

/-- Embeds `Message.encrypt(plain, sender, recipient)` of `Message.ts`: derives the
shared secret with the role flag `false` (sender side), builds associated data
from the sender's own public bundle and the recipient bundle, and calls the
external AEAD encrypt. -/
def Message.encrypt (C : Crypto) (plain : Bytes) (sender : PrivateKeyBundle)
    (recipient : KeyBundle) : Except String Ciphertext := do
  let secret ← C.sharedSecret sender recipient false
  let ad := associatedData { sender := sender.getKeyBundle, recipient := recipient }
  C.encrypt plain secret ad

/-- Embeds `Message.decrypt(encrypted, sender, recipient)` of `Message.ts`: derives
the shared secret with the role flag `true` (recipient side), rebuilds the
associated data from the wire sender bundle and the recipient's own public
bundle, and calls the external AEAD decrypt. -/
def Message.decrypt (C : Crypto) (encrypted : Ciphertext) (sender : KeyBundle)
    (recipient : PrivateKeyBundle) : Except String Bytes := do
  let secret ← C.sharedSecret recipient sender true
  let ad := associatedData { sender := sender, recipient := recipient.getKeyBundle }
  C.decrypt encrypted secret ad

/-- Embeds `Message.encode(sender, recipient, message)` of `Message.ts`: encodes the
plaintext, encrypts it, wraps header and ciphertext into a `Message` and caches
the plaintext on `decrypted`. -/
def Message.encode (C : Crypto) (sender : PrivateKeyBundle) (recipient : KeyBundle)
    (message : String) : Except String Message := do
  let bytes := textEncode message
  let ciphertext ← Message.encrypt C bytes sender recipient
  let msg : Message :=
    { header := some { sender := some sender.getKeyBundle, recipient := some recipient }
      ciphertext := some ciphertext
      decrypted := some message }
  return msg

/-- Embeds `Message.decode(recipient, bytes)` of `Message.ts`: parses the wire bytes
and runs the validation pipeline, each failed check throwing the error string of
the source; on success decrypts and populates `decrypted`. The intermediate
`new KeyBundle`, `new PublicKey`, `new Ciphertext` and `new Message` class
constructions of the source are structural copies here. -/
def Message.decode (C : Crypto) (recipient : PrivateKeyBundle) (bytes : Bytes) :
    Except String Message :=
  match proto.messageDecode bytes with
  | none => .error "invalid wire bytes"
  | some message =>
    match message.header with
    | none => .error "missing message header"
    | some header =>
      match header.sender with
      | none => .error "missing message sender"
      | some senderWire =>
        match header.recipient with
        | none => .error "missing message recipient"
        | some recipientWire =>
          match recipientWire.preKey with
          | none => .error "missing message recipient pre key"
          | some headerPreKey =>
            let sender : KeyBundle := senderWire
            match recipient.preKey with
            | none => .error "missing message recipient pre key"
            | some recipientPreKey =>
              if recipient.preKeys.length = 0 then
                .error "missing pre key"
              else if recipientPreKey.matches headerPreKey = false then
                .error "recipient pre-key mismatch"
              else
                match message.ciphertext with
                | none => .error "missing message ciphertext"
                | some ciphertext =>
                  match ciphertext.aes256GcmHkdfSha256 with
                  | none => .error "missing message ciphertext"
                  | some _ =>
                    match Message.decrypt C ciphertext sender recipient with
                    | .error e => .error e
                    | .ok plain =>
                      .ok { header := message.header
                            ciphertext := message.ciphertext
                            decrypted := some (textDecode plain) }

/-- Concrete crypto instance used for witnesses: the shared secret ignores the
role flag (so it is symmetric across it), encrypt records secret and associated
data in the suite payload, and decrypt inverts encrypt exactly when secret and
associated data agree. -/
def testCrypto : Crypto where
  sharedSecret := fun _ _ _ => .ok [99]
  encrypt := fun plain secret ad =>
    .ok { aes256GcmHkdfSha256 := some { hkdfSalt := secret, gcmNonce := ad, payload := plain } }
  decrypt := fun ct secret ad =>
    match ct.aes256GcmHkdfSha256 with
    | none => .error "no payload"
    | some pl =>
      if pl.hkdfSalt = secret ∧ pl.gcmNonce = ad then .ok pl.payload
      else .error "decryption failed"

/-- Concrete sender private bundle for witnesses. -/
def alice : PrivateKeyBundle where
  identityKey := some { publicKey := { keyBytes := [3] }, secret := [13] }
  preKey := some { publicKey := { keyBytes := [1] }, secret := [11] }
  preKeys := [{ publicKey := { keyBytes := [1] }, secret := [11] }]

/-- Concrete recipient private bundle for witnesses. -/
def bob : PrivateKeyBundle where
  identityKey := some { publicKey := { keyBytes := [4] }, secret := [14] }
  preKey := some { publicKey := { keyBytes := [2] }, secret := [12] }
  preKeys := [{ publicKey := { keyBytes := [2] }, secret := [12] }]

/-- The concrete message produced by encoding "hi" from `alice` to `bob` under
`testCrypto`; used by witnesses. -/
def msgAB : Message :=
  match Message.encode testCrypto alice bob.getKeyBundle "hi" with
  | .ok m => m
  | .error _ => { header := none, ciphertext := none, decrypted := none }

/-- A concrete, otherwise well-formed wire message whose header recipient lacks
its pre-key field; used to exercise the structural pre-key check. -/
def msgNoHeaderPreKey : Message where
  header := some
    { sender := some alice.getKeyBundle
      recipient := some { identityKey := some { keyBytes := [4] }, preKey := none } }
  ciphertext := some
    { aes256GcmHkdfSha256 := some { hkdfSalt := [99], gcmNonce := [7], payload := [8] } }
  decrypted := none

/-- A variant of `bob` whose current (active) pre-key is unset while the stored
inventory is nonempty; used to exercise the key-state check. -/
def bobNoActivePreKey : PrivateKeyBundle where
  identityKey := some { publicKey := { keyBytes := [4] }, secret := [14] }
  preKey := none
  preKeys := [{ publicKey := { keyBytes := [2] }, secret := [12] }]

/-- A crypto transformer replacing the behavior of the shared-secret derivation
at one role flag by an arbitrary function, leaving the other flag and the AEAD
primitives unchanged; used to state that a pipeline never consults the flag it
is claimed not to use. -/
def poisonSharedSecret (C : Crypto) (flag : Bool)
    (f : PrivateKeyBundle → KeyBundle → Except String Bytes) : Crypto :=
  { C with sharedSecret := fun b kb fl => if fl = flag then f b kb else C.sharedSecret b kb fl }

/-- A concrete fully valid wire message from `alice` to `bob` (header fields and
suite payload all present, header pre-key matching `bob`'s active pre-key);
used as the baseline input of several witnesses. -/
def msgValidWire : Message where
  header := some { sender := some alice.getKeyBundle, recipient := some bob.getKeyBundle }
  ciphertext := some
    { aes256GcmHkdfSha256 := some { hkdfSalt := [99], gcmNonce := [7], payload := [8] } }
  decrypted := none

/-- A concrete wire message whose header recipient carries a pre-key different
from `bob`'s active pre-key; used to exercise the pre-key mismatch check. -/
def msgWrongPreKey : Message where
  header := some
    { sender := some alice.getKeyBundle
      recipient := some { identityKey := some { keyBytes := [4] }, preKey := some { keyBytes := [5] } } }
  ciphertext := some
    { aes256GcmHkdfSha256 := some { hkdfSalt := [99], gcmNonce := [7], payload := [8] } }
  decrypted := none

/-- A concrete wire message whose header recipient carries `bob`'s pre-key but
an identity key that is not `bob`'s; used to exercise the scope of the identity
confusion check. -/
def msgWrongIdentityKey : Message where
  header := some
    { sender := some alice.getKeyBundle
      recipient := some { identityKey := some { keyBytes := [9] }, preKey := some { keyBytes := [2] } } }
  ciphertext := some
    { aes256GcmHkdfSha256 := some { hkdfSalt := [99], gcmNonce := [7], payload := [8] } }
  decrypted := none

namespace proto

/-- Parsing a length-prefixed byte field recovers it together with the rest of
the input. -/
theorem decBytes_encBytes (b r : Bytes) : decBytes (encBytes b ++ r) = some (b, r) := by
  simp [encBytes, decBytes, Nat.not_lt.mpr (Nat.le_add_right b.length r.length),
    List.take_left, List.drop_left]

/-- Parsing an optional field recovers it, given that the underlying parser
recovers the underlying encoding. -/
theorem decOpt_encOpt (enc : α → Bytes) (dec : Bytes → Option (α × Bytes))
    (hp : ∀ x r, dec (enc x ++ r) = some (x, r)) (o : Option α) (r : Bytes) :
    decOpt dec (encOpt enc o ++ r) = some (o, r) := by
  cases o with
  | none => simp [encOpt, decOpt]
  | some x => simp [encOpt, decOpt, hp x r]

/-- Parsing an encoded public key recovers it. -/
theorem publicKeyParse_encode (k : PublicKey) (r : Bytes) :
    publicKeyParse (publicKeyEncode k ++ r) = some (k, r) := by
  simp [publicKeyParse, publicKeyEncode, decBytes_encBytes]

/-- Parsing an encoded key bundle recovers it. -/
theorem keyBundleParse_encode (k : KeyBundle) (r : Bytes) :
    keyBundleParse (keyBundleEncode k ++ r) = some (k, r) := by
  simp [keyBundleParse, keyBundleEncode, List.append_assoc,
    decOpt_encOpt publicKeyEncode publicKeyParse publicKeyParse_encode]

/-- Parsing an encoded header recovers it. -/
theorem headerParse_encode (h : Header) (r : Bytes) :
    headerParse (headerEncode h ++ r) = some (h, r) := by
  simp [headerParse, headerEncode, List.append_assoc,
    decOpt_encOpt keyBundleEncode keyBundleParse keyBundleParse_encode]

/-- Full header decoding inverts header encoding. -/
theorem headerDecode_encode (h : Header) : headerDecode (headerEncode h) = some h := by
  have := headerParse_encode h []
  simp only [List.append_nil] at this
  simp [headerDecode, this]

/-- Header encoding is injective. -/
theorem headerEncode_injective (h1 h2 : Header)
    (heq : headerEncode h1 = headerEncode h2) : h1 = h2 := by
  have e1 := headerDecode_encode h1
  have e2 := headerDecode_encode h2
  rw [heq] at e1
  rw [e2] at e1
  exact (Option.some_inj.mp e1).symm

/-- Parsing an encoded AEAD suite payload recovers it. -/
theorem aesPayloadParse_encode (a : AesPayload) (r : Bytes) :
    aesPayloadParse (aesPayloadEncode a ++ r) = some (a, r) := by
  simp [aesPayloadParse, aesPayloadEncode, List.append_assoc, decBytes_encBytes]

/-- Parsing an encoded ciphertext container recovers it. -/
theorem ciphertextParse_encode (c : Ciphertext) (r : Bytes) :
    ciphertextParse (ciphertextEncode c ++ r) = some (c, r) := by
  simp [ciphertextParse, ciphertextEncode,
    decOpt_encOpt aesPayloadEncode aesPayloadParse aesPayloadParse_encode]

/-- Wire decoding of an encoded message recovers its header and ciphertext
fields; the transient `decrypted` cache is not transmitted. -/
theorem messageDecode_encode (m : Message) :
    messageDecode (messageEncode m) = some { header := m.header, ciphertext := m.ciphertext, decrypted := none } := by
  have h2 := decOpt_encOpt ciphertextEncode ciphertextParse ciphertextParse_encode m.ciphertext []
  simp only [List.append_nil] at h2
  simp [messageDecode, messageEncode, List.append_assoc,
    decOpt_encOpt headerEncode headerParse headerParse_encode, h2]

end proto

/-- Decoding the fixed text encoding of a string recovers the string. -/
theorem textDecode_textEncode (s : String) : textDecode (textEncode s) = s := by
  cases s with
  | mk data =>
    simp [textDecode, textEncode, List.map_map, Function.comp_def, Char.ofNat_toNat]

/-- A concrete wire message whose sender bundle is present but has both inner
fields absent; used to exercise that the sender bundle is not validated. -/
def msgEmptySender : Message where
  header := some { sender := some { identityKey := none, preKey := none }, recipient := some bob.getKeyBundle }
  ciphertext := msgValidWire.ciphertext
  decrypted := none

/-- Serializing a message and wire-decoding the bytes recovers its header and
ciphertext fields (the `decrypted` cache is dropped). -/
theorem messageDecode_toBytes (m : Message) :
    proto.messageDecode (Message.toBytes m) =
      some { header := m.header, ciphertext := m.ciphertext, decrypted := none } :=
  proto.messageDecode_encode m

/-- C2: missing-field matrix. For a wire message in which one of {header,
header.sender, header.recipient, header.recipient's pre-key, ciphertext
AEAD-suite payload} is absent while the fields checked before it are present
and valid, `Message.decode` fails with the error string of exactly that field's
check. The statement is universally quantified over the crypto primitives, so
in each failing case the result is independent of the AEAD decrypt (and of the
shared-secret derivation): the decrypt primitive is never consulted. -/
theorem decode_missing_field_matrix (C : Crypto) (recipient : PrivateKeyBundle) (m : Message) :
    (m.header = none →
      Message.decode C recipient (Message.toBytes m) = .error "missing message header") ∧
    (∀ hdr : Header, m.header = some hdr → hdr.sender = none →
      Message.decode C recipient (Message.toBytes m) = .error "missing message sender") ∧
    (∀ (hdr : Header) (sb : KeyBundle), m.header = some hdr → hdr.sender = some sb →
      hdr.recipient = none →
      Message.decode C recipient (Message.toBytes m) = .error "missing message recipient") ∧
    (∀ (hdr : Header) (sb rb : KeyBundle), m.header = some hdr → hdr.sender = some sb →
      hdr.recipient = some rb → rb.preKey = none →
      Message.decode C recipient (Message.toBytes m) = .error "missing message recipient pre key") ∧
    (∀ (hdr : Header) (sb rb : KeyBundle) (k : PublicKey) (pk : PrivateKey),
      m.header = some hdr → hdr.sender = some sb → hdr.recipient = some rb →
      rb.preKey = some k → recipient.preKey = some pk → recipient.preKeys ≠ [] →
      pk.matches k = true →
      m.ciphertext.bind (fun ct => ct.aes256GcmHkdfSha256) = none →
      Message.decode C recipient (Message.toBytes m) = .error "missing message ciphertext") := by
  refine ⟨?_, ?_, ?_, ?_, ?_⟩
  · intro hh
    simp [Message.decode, messageDecode_toBytes, hh]
  · intro hdr hh hs
    simp [Message.decode, messageDecode_toBytes, hh, hs]
  · intro hdr sb hh hs hr
    simp [Message.decode, messageDecode_toBytes, hh, hs, hr]
  · intro hdr sb rb hh hs hr hk
    simp [Message.decode, messageDecode_toBytes, hh, hs, hr, hk]
  · intro hdr sb rb k pk hh hs hr hk hp hinv hmatch hct
    cases hc : m.ciphertext with
    | none =>
      simp [Message.decode, messageDecode_toBytes, hh, hs, hr, hk, hp, hmatch, hc,
        List.length_eq_zero, hinv]
    | some ct =>
      rw [hc] at hct
      simp only [Option.some_bind] at hct
      simp [Message.decode, messageDecode_toBytes, hh, hs, hr, hk, hp, hmatch, hc, hct,
        List.length_eq_zero, hinv]

/-- Witness for C2: each of the five removals, on concrete inputs built from
the valid baseline, yields exactly its check's error string. -/
theorem decode_missing_field_matrix_witness :
    Message.decode testCrypto bob (Message.toBytes
      { header := none, ciphertext := msgValidWire.ciphertext, decrypted := none }) =
        .error "missing message header" ∧
    Message.decode testCrypto bob (Message.toBytes
      { header := some { sender := none, recipient := some bob.getKeyBundle }
        ciphertext := msgValidWire.ciphertext, decrypted := none }) =
        .error "missing message sender" ∧
    Message.decode testCrypto bob (Message.toBytes
      { header := some { sender := some alice.getKeyBundle, recipient := none }
        ciphertext := msgValidWire.ciphertext, decrypted := none }) =
        .error "missing message recipient" ∧
    Message.decode testCrypto bob (Message.toBytes
      { header := some { sender := some alice.getKeyBundle
                         recipient := some { identityKey := some { keyBytes := [4] }, preKey := none } }
        ciphertext := msgValidWire.ciphertext, decrypted := none }) =
        .error "missing message recipient pre key" ∧
    Message.decode testCrypto bob (Message.toBytes
      { header := msgValidWire.header, ciphertext := some { aes256GcmHkdfSha256 := none }
        decrypted := none }) =
        .error "missing message ciphertext" := by
  refine ⟨(decode_missing_field_matrix testCrypto bob _).1 rfl,
    (decode_missing_field_matrix testCrypto bob _).2.1 _ rfl rfl,
    (decode_missing_field_matrix testCrypto bob _).2.2.1 _ _ rfl rfl rfl,
    (decode_missing_field_matrix testCrypto bob _).2.2.2.1 _ _ _ rfl rfl rfl rfl,
    (decode_missing_field_matrix testCrypto bob _).2.2.2.2 _ _ _ _ _ rfl rfl rfl rfl rfl
      (by decide) (by decide) rfl⟩

/-- C7: pre-key mismatch rejection. If the structural checks pass but the local
recipient bundle's active pre-key does not match the pre-key named in the
header's recipient, decode fails with the mismatch error, for every crypto
primitive instance (so decryption is never attempted) and for arbitrary
ciphertext contents. -/
theorem decode_prekey_mismatch_rejection (C : Crypto) (recipient : PrivateKeyBundle)
    (m : Message) (hdr : Header) (sb rb : KeyBundle) (k : PublicKey) (pk : PrivateKey)
    (hh : m.header = some hdr) (hs : hdr.sender = some sb) (hr : hdr.recipient = some rb)
    (hk : rb.preKey = some k) (hp : recipient.preKey = some pk)
    (hinv : recipient.preKeys ≠ []) (hmatch : pk.matches k = false) :
    Message.decode C recipient (Message.toBytes m) = .error "recipient pre-key mismatch" := by
  simp [Message.decode, messageDecode_toBytes, hh, hs, hr, hk, hp, hmatch,
    List.length_eq_zero, hinv]

/-- Witness for C7: decoding a concrete message naming pre-key `[5]` with `bob`
(active pre-key `[2]`) yields the mismatch error. -/
theorem decode_prekey_mismatch_rejection_witness :
    Message.decode testCrypto bob (Message.toBytes msgWrongPreKey) =
      .error "recipient pre-key mismatch" :=
  decode_prekey_mismatch_rejection testCrypto bob msgWrongPreKey _ _ _ _ _
    rfl rfl rfl rfl rfl (by decide) (by decide)

/-- C3, counterexample: the structural failure "pre-key absent from the wire
header's recipient" and the key-state failure "local recipient bundle has no
current (active) pre-key" are NOT distinguishable by the error they produce —
on the two concrete inputs below, one triggering each check, decode throws the
identical error string "missing message recipient pre key". -/
theorem decode_prekey_errors_indistinguishable :
    Message.decode testCrypto bob (Message.toBytes msgNoHeaderPreKey) =
      .error "missing message recipient pre key" ∧
    Message.decode testCrypto bobNoActivePreKey (Message.toBytes msgValidWire) =
      .error "missing message recipient pre key" :=
  ⟨rfl, rfl⟩

/-- C3, amended: every validation check in decode surfaces immediately as an
error, and the error strings distinguish the checks, except that the structural
check on the wire header recipient's pre-key and the key-state check on the
local active pre-key both fail with the identical string
"missing message recipient pre key" and are not distinguishable from each
other. The first two conjuncts give the two checks' behavior for all inputs
(with the same error string); the last conjunct states that the error strings
of the remaining distinct checks of `Message.decode` are pairwise different. -/
theorem decode_error_distinctness_amended (C : Crypto) (recipient : PrivateKeyBundle)
    (m : Message) :
    (∀ (hdr : Header) (sb rb : KeyBundle), m.header = some hdr → hdr.sender = some sb →
      hdr.recipient = some rb → rb.preKey = none →
      Message.decode C recipient (Message.toBytes m) = .error "missing message recipient pre key") ∧
    (∀ (hdr : Header) (sb rb : KeyBundle) (k : PublicKey), m.header = some hdr →
      hdr.sender = some sb → hdr.recipient = some rb → rb.preKey = some k →
      recipient.preKey = none →
      Message.decode C recipient (Message.toBytes m) = .error "missing message recipient pre key") ∧
    (["missing message header", "missing message sender", "missing message recipient",
      "missing message recipient pre key", "missing pre key", "recipient pre-key mismatch",
      "missing message ciphertext"] : List String).Pairwise (fun a b => a ≠ b) := by
  refine ⟨?_, ?_, by decide⟩
  · intro hdr sb rb hh hs hr hk
    simp [Message.decode, messageDecode_toBytes, hh, hs, hr, hk]
  · intro hdr sb rb k hh hs hr hk hp
    simp [Message.decode, messageDecode_toBytes, hh, hs, hr, hk, hp]

/-- Witness for the amended C3: both pre-key checks exercised on concrete
inputs produce the shared error string, and the remaining error strings are
pairwise distinct. -/
theorem decode_error_distinctness_amended_witness :
    Message.decode testCrypto bob (Message.toBytes msgNoHeaderPreKey) =
      .error "missing message recipient pre key" ∧
    Message.decode testCrypto bobNoActivePreKey (Message.toBytes msgValidWire) =
      .error "missing message recipient pre key" ∧
    (["missing message header", "missing message sender", "missing message recipient",
      "missing message recipient pre key", "missing pre key", "recipient pre-key mismatch",
      "missing message ciphertext"] : List String).Pairwise (fun a b => a ≠ b) :=
  ⟨(decode_error_distinctness_amended testCrypto bob msgNoHeaderPreKey).1 _ _ _
      rfl rfl rfl rfl,
    (decode_error_distinctness_amended testCrypto bobNoActivePreKey msgValidWire).2.1 _ _ _ _
      rfl rfl rfl rfl rfl,
    (decode_error_distinctness_amended testCrypto bob msgValidWire).2.2⟩

/-- C8: header serialization round-trip. For a header with both sender and
recipient populated, wire-decoding its serialization yields the same header
(the wire codec is spec-modelled; its decode inverts its encode). -/
theorem header_toBytes_fromBytes_roundtrip (h : Header) (hs : h.sender.isSome)
    (hr : h.recipient.isSome) : Header.fromBytes (Header.toBytes h) = some h :=
  proto.headerDecode_encode h

/-- Witness for C8: round-trip on a concrete fully populated header. -/
theorem header_toBytes_fromBytes_roundtrip_witness :
    Header.fromBytes (Header.toBytes
      { sender := some alice.getKeyBundle, recipient := some bob.getKeyBundle }) =
      some { sender := some alice.getKeyBundle, recipient := some bob.getKeyBundle } :=
  header_toBytes_fromBytes_roundtrip _ rfl rfl

/-- C9: the sender bundle is not structurally validated. With the header and
its recipient-side fields present and valid, decode reaches the decryption
stage for an arbitrary wire sender bundle `sb` — its inner fields (identity
key, pre-key) may be absent or arbitrary — and the result is exactly the
result of `Message.decrypt` on it: any failure can only come from the external
shared-secret derivation or AEAD decryption. -/
theorem decode_sender_not_validated (C : Crypto) (recipient : PrivateKeyBundle)
    (m : Message) (hdr : Header) (sb rb : KeyBundle) (k : PublicKey) (pk : PrivateKey)
    (ct : Ciphertext) (pl : AesPayload)
    (hh : m.header = some hdr) (hs : hdr.sender = some sb) (hr : hdr.recipient = some rb)
    (hk : rb.preKey = some k) (hp : recipient.preKey = some pk)
    (hinv : recipient.preKeys ≠ []) (hmatch : pk.matches k = true)
    (hc : m.ciphertext = some ct) (hpl : ct.aes256GcmHkdfSha256 = some pl) :
    Message.decode C recipient (Message.toBytes m) =
      (Message.decrypt C ct sb recipient).map (fun plain =>
        { header := m.header, ciphertext := m.ciphertext
          decrypted := some (textDecode plain) }) := by
  cases hd : Message.decrypt C ct sb recipient with
  | error e =>
    simp [Message.decode, messageDecode_toBytes, hh, hs, hr, hk, hp, hmatch, hc, hpl,
      List.length_eq_zero, hinv, hd, Except.map]
  | ok plain =>
    simp [Message.decode, messageDecode_toBytes, hh, hs, hr, hk, hp, hmatch, hc, hpl,
      List.length_eq_zero, hinv, hd, Except.map]

/-- Witness for C9: a concrete message whose wire sender bundle has both inner
fields absent still reaches decryption with `bob`, and the decode result is
the decrypt result. -/
theorem decode_sender_not_validated_witness :
    Message.decode testCrypto bob (Message.toBytes msgEmptySender) =
      (Message.decrypt testCrypto
          { aes256GcmHkdfSha256 := some { hkdfSalt := [99], gcmNonce := [7], payload := [8] } }
          { identityKey := none, preKey := none } bob).map (fun plain =>
        { header := msgEmptySender.header, ciphertext := msgEmptySender.ciphertext,
          decrypted := some (textDecode plain) }) :=
  decode_sender_not_validated testCrypto bob msgEmptySender _ _ _ _ _ _ _
    rfl rfl rfl rfl rfl (by decide) (by decide) rfl rfl

/-- C10: the identity-confusion check covers pre-keys only. If the wire
header's recipient carries a pre-key matching the local active pre-key but an
identity key different from the local recipient's identity key, the check
passes and decode proceeds to decryption, returning exactly the decrypt
result. -/
theorem decode_identity_check_covers_prekey_only (C : Crypto) (recipient : PrivateKeyBundle)
    (m : Message) (hdr : Header) (sb rb : KeyBundle) (k : PublicKey) (pk : PrivateKey)
    (ct : Ciphertext) (pl : AesPayload)
    (hh : m.header = some hdr) (hs : hdr.sender = some sb) (hr : hdr.recipient = some rb)
    (hk : rb.preKey = some k) (hp : recipient.preKey = some pk)
    (hinv : recipient.preKeys ≠ []) (hmatch : pk.matches k = true)
    (hid : rb.identityKey ≠ recipient.getKeyBundle.identityKey)
    (hc : m.ciphertext = some ct) (hpl : ct.aes256GcmHkdfSha256 = some pl) :
    Message.decode C recipient (Message.toBytes m) =
      (Message.decrypt C ct sb recipient).map (fun plain =>
        { header := m.header, ciphertext := m.ciphertext
          decrypted := some (textDecode plain) }) := by
  cases hd : Message.decrypt C ct sb recipient with
  | error e =>
    simp [Message.decode, messageDecode_toBytes, hh, hs, hr, hk, hp, hmatch, hc, hpl,
      List.length_eq_zero, hinv, hd, Except.map]
  | ok plain =>
    simp [Message.decode, messageDecode_toBytes, hh, hs, hr, hk, hp, hmatch, hc, hpl,
      List.length_eq_zero, hinv, hd, Except.map]

/-- Witness for C10: a concrete message whose header recipient has `bob`'s
pre-key but identity key `[9]` (`bob`'s is `[4]`) proceeds to decryption. -/
theorem decode_identity_check_covers_prekey_only_witness :
    Message.decode testCrypto bob (Message.toBytes msgWrongIdentityKey) =
      (Message.decrypt testCrypto
          { aes256GcmHkdfSha256 := some { hkdfSalt := [99], gcmNonce := [7], payload := [8] } }
          alice.getKeyBundle bob).map (fun plain =>
        { header := msgWrongIdentityKey.header, ciphertext := msgWrongIdentityKey.ciphertext
          decrypted := some (textDecode plain) }) :=
  decode_identity_check_covers_prekey_only testCrypto bob msgWrongIdentityKey _ _ _ _ _ _ _
    rfl rfl rfl rfl rfl (by decide) (by decide) (by decide) rfl rfl

/-- Helper: `Message.encrypt` is unchanged when the shared-secret derivation is
replaced at the recipient-side flag (`true`) by an arbitrary function. -/
theorem encrypt_poisonSharedSecret_true (C : Crypto)
    (f : PrivateKeyBundle → KeyBundle → Except String Bytes)
    (plain : Bytes) (sender : PrivateKeyBundle) (recipient : KeyBundle) :
    Message.encrypt (poisonSharedSecret C true f) plain sender recipient =
      Message.encrypt C plain sender recipient := by
  simp [Message.encrypt, poisonSharedSecret]

/-- Helper: `Message.decrypt` is unchanged when the shared-secret derivation is
replaced at the sender-side flag (`false`) by an arbitrary function. -/
theorem decrypt_poisonSharedSecret_false (C : Crypto)
    (f : PrivateKeyBundle → KeyBundle → Except String Bytes)
    (encrypted : Ciphertext) (sender : KeyBundle) (recipient : PrivateKeyBundle) :
    Message.decrypt (poisonSharedSecret C false f) encrypted sender recipient =
      Message.decrypt C encrypted sender recipient := by
  simp [Message.decrypt, poisonSharedSecret]

/-- C4: key-agreement direction convention. The encode pipeline derives the
shared secret exactly by `sender.sharedSecret(recipient, false)` and the decode
pipeline exactly by `recipient.sharedSecret(sender, true)`: the last two
conjuncts unfold the two derivation calls with their role flags, and the first
four show that arbitrarily replacing the derivation at the opposite flag (via
`poisonSharedSecret`) never changes either pipeline — so no call in either
pipeline uses the opposite flag. -/
theorem key_agreement_direction_convention (C : Crypto)
    (f : PrivateKeyBundle → KeyBundle → Except String Bytes) :
    (∀ (plain : Bytes) (sender : PrivateKeyBundle) (recipient : KeyBundle),
      Message.encrypt (poisonSharedSecret C true f) plain sender recipient =
        Message.encrypt C plain sender recipient) ∧
    (∀ (sender : PrivateKeyBundle) (recipient : KeyBundle) (msg : String),
      Message.encode (poisonSharedSecret C true f) sender recipient msg =
        Message.encode C sender recipient msg) ∧
    (∀ (encrypted : Ciphertext) (sender : KeyBundle) (recipient : PrivateKeyBundle),
      Message.decrypt (poisonSharedSecret C false f) encrypted sender recipient =
        Message.decrypt C encrypted sender recipient) ∧
    (∀ (recipient : PrivateKeyBundle) (bytes : Bytes),
      Message.decode (poisonSharedSecret C false f) recipient bytes =
        Message.decode C recipient bytes) ∧
    (∀ (plain : Bytes) (sender : PrivateKeyBundle) (recipient : KeyBundle),
      Message.encrypt C plain sender recipient =
        (C.sharedSecret sender recipient false).bind (fun secret =>
          C.encrypt plain secret
            (associatedData { sender := sender.getKeyBundle, recipient := recipient }))) ∧
    (∀ (encrypted : Ciphertext) (sender : KeyBundle) (recipient : PrivateKeyBundle),
      Message.decrypt C encrypted sender recipient =
        (C.sharedSecret recipient sender true).bind (fun secret =>
          C.decrypt encrypted secret
            (associatedData { sender := sender, recipient := recipient.getKeyBundle }))) := by
  refine ⟨encrypt_poisonSharedSecret_true C f, ?_, decrypt_poisonSharedSecret_false C f, ?_, ?_, ?_⟩
  · intro sender recipient msg
    simp [Message.encode, encrypt_poisonSharedSecret_true]
  · intro recipient bytes
    simp only [Message.decode, decrypt_poisonSharedSecret_false]
  · intro plain sender recipient
    rfl
  · intro encrypted sender recipient
    rfl

/-- C5: associated-data direction sensitivity. For distinct bundles `A ≠ B`,
the associated data of `(sender = A, recipient = B)` differs from that of
`(sender = B, recipient = A)`: the function is not symmetric in its
arguments. -/
theorem associatedData_direction_sensitivity (A B : KeyBundle) (hne : A ≠ B) :
    associatedData { sender := A, recipient := B } ≠
      associatedData { sender := B, recipient := A } := by
  intro h
  simp only [associatedData] at h
  have heq := proto.headerEncode_injective
    { sender := some A, recipient := some B } { sender := some B, recipient := some A } h
  have hs : some A = some B := congrArg Header.sender heq
  exact hne (Option.some_inj.mp hs)

/-- Witness for C5: the two orders of the concrete distinct bundles of `alice`
and `bob` produce different associated-data bytes. -/
theorem associatedData_direction_sensitivity_witness :
    associatedData { sender := alice.getKeyBundle, recipient := bob.getKeyBundle } ≠
      associatedData { sender := bob.getKeyBundle, recipient := alice.getKeyBundle } :=
  associatedData_direction_sensitivity alice.getKeyBundle bob.getKeyBundle (by decide)

/-- C6: encode header/AD agreement. For every successful encode, the header of
the returned message is exactly `{sender: sender.getKeyBundle(), recipient}`,
its serialization equals the associated-data bytes, and the encrypt pipeline
passes exactly those bytes to the AEAD encrypt primitive (the bundle projection
is a pure function, hence deterministic across its two invocations). -/
theorem encode_header_matches_associated_data (C : Crypto) (sender : PrivateKeyBundle)
    (recipient : KeyBundle) (plaintext : String) (m : Message)
    (henc : Message.encode C sender recipient plaintext = .ok m) :
    m.header = some { sender := some sender.getKeyBundle, recipient := some recipient } ∧
    Header.toBytes { sender := some sender.getKeyBundle, recipient := some recipient } =
      associatedData { sender := sender.getKeyBundle, recipient := recipient } ∧
    Message.encrypt C (textEncode plaintext) sender recipient =
      (C.sharedSecret sender recipient false).bind (fun secret =>
        C.encrypt (textEncode plaintext) secret
          (Header.toBytes { sender := some sender.getKeyBundle, recipient := some recipient })) := by
  refine ⟨?_, rfl, rfl⟩
  have henc2 : (Message.encrypt C (textEncode plaintext) sender recipient).bind
      (fun ciphertext => Except.ok
        { header := some { sender := some sender.getKeyBundle, recipient := some recipient }
          ciphertext := some ciphertext, decrypted := some plaintext }) = Except.ok m := henc
  cases he : Message.encrypt C (textEncode plaintext) sender recipient with
  | error e => rw [he] at henc2; exact absurd henc2 (by simp [Except.bind])
  | ok ct =>
    rw [he] at henc2
    simp only [Except.bind, Except.ok.injEq] at henc2
    rw [← henc2]

/-- Witness for C6: the concrete successful encode of "hi" from `alice` to
`bob` has its header equal to the associated-data source and feeds its
serialization to the AEAD encrypt. -/
theorem encode_header_matches_associated_data_witness :
    msgAB.header = some { sender := some alice.getKeyBundle, recipient := some bob.getKeyBundle } ∧
    Header.toBytes { sender := some alice.getKeyBundle, recipient := some bob.getKeyBundle } =
      associatedData { sender := alice.getKeyBundle, recipient := bob.getKeyBundle } ∧
    Message.encrypt testCrypto (textEncode "hi") alice bob.getKeyBundle =
      (testCrypto.sharedSecret alice bob.getKeyBundle false).bind (fun secret =>
        testCrypto.encrypt (textEncode "hi") secret
          (Header.toBytes { sender := some alice.getKeyBundle, recipient := some bob.getKeyBundle })) :=
  encode_header_matches_associated_data testCrypto alice bob.getKeyBundle "hi" msgAB rfl

/-- C1: round-trip. Under the external contracts assumed by the claim — the
shared-secret derivation is symmetric across the role flag (`hsym`), the AEAD
decrypt inverts encrypt under equal secret and associated data (`hinverse`),
and encrypt emits the one supported suite payload (`hsuite`) — decoding the
serialized result of a successful encode with the matching recipient private
bundle succeeds and its `decrypted` field is the original plaintext. -/
theorem encode_decode_roundtrip (C : Crypto) (sender recipient : PrivateKeyBundle)
    (recipientBundle : KeyBundle) (plaintext : String) (m : Message)
    (hbundle : recipientBundle = recipient.getKeyBundle)
    (hpre : recipient.preKey.isSome)
    (hinv : recipient.preKeys ≠ [])
    (hsym : C.sharedSecret recipient sender.getKeyBundle true =
      C.sharedSecret sender recipientBundle false)
    (hinverse : ∀ (p s ad : Bytes) (ct : Ciphertext),
      C.encrypt p s ad = .ok ct → C.decrypt ct s ad = .ok p)
    (hsuite : ∀ (p s ad : Bytes) (ct : Ciphertext),
      C.encrypt p s ad = .ok ct → ct.aes256GcmHkdfSha256.isSome)
    (henc : Message.encode C sender recipientBundle plaintext = .ok m) :
    Message.decode C recipient (Message.toBytes m) =
      .ok { header := m.header, ciphertext := m.ciphertext, decrypted := some plaintext } := by
  subst hbundle
  have henc2 : (Message.encrypt C (textEncode plaintext) sender recipient.getKeyBundle).bind
      (fun ciphertext => Except.ok
        { header := some { sender := some sender.getKeyBundle
                           recipient := some recipient.getKeyBundle }
          ciphertext := some ciphertext, decrypted := some plaintext }) = Except.ok m := henc
  cases he : Message.encrypt C (textEncode plaintext) sender recipient.getKeyBundle with
  | error e => rw [he] at henc2; exact absurd henc2 (by simp [Except.bind])
  | ok ct =>
    rw [he] at henc2
    simp only [Except.bind, Except.ok.injEq] at henc2
    have he2 : (C.sharedSecret sender recipient.getKeyBundle false).bind (fun secret =>
        C.encrypt (textEncode plaintext) secret
          (associatedData { sender := sender.getKeyBundle
                            recipient := recipient.getKeyBundle })) = Except.ok ct := he
    cases hsec : C.sharedSecret sender recipient.getKeyBundle false with
    | error e => rw [hsec] at he2; exact absurd he2 (by simp [Except.bind])
    | ok secret =>
      rw [hsec] at he2
      simp only [Except.bind] at he2
      obtain ⟨pl, hpl⟩ := Option.isSome_iff_exists.mp (hsuite _ _ _ _ he2)
      obtain ⟨pk, hpk⟩ := Option.isSome_iff_exists.mp hpre
      have hgkb : recipient.getKeyBundle.preKey = some pk.publicKey := by
        simp [PrivateKeyBundle.getKeyBundle, hpk]
      have hdec : Message.decrypt C ct sender.getKeyBundle recipient =
          Except.ok (textEncode plaintext) := by
        have hunfold : Message.decrypt C ct sender.getKeyBundle recipient =
            (C.sharedSecret recipient sender.getKeyBundle true).bind (fun secret =>
              C.decrypt ct secret
                (associatedData { sender := sender.getKeyBundle
                                  recipient := recipient.getKeyBundle })) := rfl
        rw [hunfold, hsym, hsec]
        simp only [Except.bind]
        exact hinverse _ _ _ _ he2
      subst henc2
      simp [Message.decode, messageDecode_toBytes, hgkb, hpk, hpl, hdec,
        List.length_eq_zero, hinv, PrivateKey.matches, PublicKey.matches,
        textDecode_textEncode]

/-- Witness for C1: the concrete round-trip of the plaintext "hi" from `alice`
to `bob` under `testCrypto`. -/
theorem encode_decode_roundtrip_witness :
    Message.decode testCrypto bob (Message.toBytes msgAB) =
      .ok { header := msgAB.header, ciphertext := msgAB.ciphertext, decrypted := some "hi" } :=
  encode_decode_roundtrip testCrypto alice bob bob.getKeyBundle "hi" msgAB rfl rfl
    (by decide) rfl
    (by intro p s ad ct h
        have h2 := Except.ok.inj h
        subst h2
        simp [testCrypto])
    (by intro p s ad ct h
        have h2 := Except.ok.inj h
        subst h2
        rfl)
    rfl
